import Mathlib

/-!
Shallow embedding of the lead-scraper fetch-orchestration core
(job tracker, rate limiter, retry executor, dedup ledger, scheduler helpers,
pipeline marking phase), together with proofs of the specification claims.

Time is modelled exactly, as integers (`ℤ`): seconds since the epoch
(`datetime.utcnow()`) in every module except the rate limiter, which counts
tenths of a second so that its `0.1 s` safety margin is exact.  Python
dictionaries keyed by strings are modelled as association lists where an
insert prepends and a lookup returns the most recent binding.
`asyncio.sleep d` is modelled as advancing the clock by exactly `d`.
-/

namespace LeadScraper

/-- `x or y` on optional strings, as Python evaluates it: an absent value and
the empty string are falsy and fall through to the second operand. -/
def pyOrStr (x y : Option String) : Option String :=
  match x with
  | some s => if s = "" then y else some s
  | none => y

/-- Truthiness of an optional string in Python (`if not source_id: ...`). -/
def strTruthy (x : Option String) : Bool :=
  match x with
  | some s => decide (s ≠ "")
  | none => false

namespace JobTracker

/-- Job status values stored in `JobTracker._active_jobs[..]["status"]`. -/
inductive JobStatus where
  | starting
  | running
  | completed
  | failed
deriving DecidableEq

/-- One entry of `JobTracker._active_jobs` (src/modules/jobs/tracker.py). -/
structure Job where
  status : JobStatus
  started_at : Option ℤ
  completed_at : Option ℤ
  error : Option String
deriving DecidableEq

/-- The `_active_jobs` dict: newest binding first, lookup takes the first hit. -/
abbrev Jobs := List (String × Job)

/-- Dict lookup `self._active_jobs[search_id]` / `search_id in self._active_jobs`. -/
def jobsGet (js : Jobs) (id : String) : Option Job :=
  (js.find? (fun p => decide (p.1 = id))).map (·.2)

/-- Dict write `self._active_jobs[search_id] = job` (prepend overrides). -/
def jobsSet (js : Jobs) (id : String) (j : Job) : Jobs :=
  (id, j) :: js

/-- `JobTracker._mark_job_failed`: set status `failed`, record the error text
and a completion time (tracker.py lines 160-165). -/
def mark_job_failed (js : Jobs) (id : String) (err : String) (now : ℤ) : Jobs :=
  match jobsGet js id with
  | some j => jobsSet js id { j with status := .failed, error := some err, completed_at := some now }
  | none => js

/-- `JobTracker.is_job_running` (tracker.py lines 38-65).  Returns the boolean
answer together with the possibly-mutated job table (a job running for more
than 7200 seconds is reaped: marked failed and reported not running). -/
def is_job_running (js : Jobs) (id : String) (now : ℤ) : Bool × Jobs :=
  match jobsGet js id with
  | some job =>
    if job.status = .running ∨ job.status = .starting then
      match job.started_at with
      | some s =>
        if now - s > 7200 then
          (false, mark_job_failed js id "Job timed out after 2 hours" now)
        else
          (true, js)
      | none => (true, js)
    else
      (false, js)
  | none => (false, js)

/-- `JobTracker.start_job` (tracker.py lines 100-121): refuse if a job is
running, otherwise create a `running` job recording the start time. -/
def start_job (js : Jobs) (id : String) (now : ℤ) : Bool × Jobs :=
  let r := is_job_running js id now
  if r.1 then
    (false, r.2)
  else
    (true, jobsSet r.2 id { status := .running, started_at := some now,
                            completed_at := none, error := none })

/-- `JobTracker.complete_job` (tracker.py lines 123-158), without the delayed
cleanup task: transition the tracked job to a terminal status. -/
def complete_job (js : Jobs) (id : String) (success : Bool) (err : Option String)
    (now : ℤ) : Jobs :=
  match jobsGet js id with
  | none => js
  | some job =>
    jobsSet js id { job with
      status := if success then .completed else .failed,
      completed_at := some now,
      error := match err with | some e => some e | none => job.error }

/-- Structured content of the reason string returned by `can_start_job`.
The Python message formats the remaining wait as
`remainingSeconds / 60` minutes; the exact numerator is carried here. -/
inductive Reason where
  | alreadyRunning (id : String)
  | cooldown (remainingSeconds : ℤ)
deriving DecidableEq

/-- `min_cooldown_minutes or self.cooldown_minutes`: Python `or` falls through
on `None` and on `0`. -/
def pyOrCooldown (x : Option ℤ) (d : ℤ) : ℤ :=
  match x with
  | some v => if v = 0 then d else v
  | none => d

/-- `JobTracker.can_start_job` (tracker.py lines 67-98).  `lastScrapeAt` is
`search.last_scrape_at` for the search the storage returns (`none` in the
outer option when the search does not exist).  The source compares
`minutes_since < cooldown` with `minutes_since = (now − last)/60` computed
exactly; over the integers this is equivalent to
`now − last < 60 * cooldown`, the form used here. -/
def can_start_job (js : Jobs) (id : String) (now : ℤ)
    (minCooldownMinutes : Option ℤ) (defaultCooldownMinutes : ℤ)
    (search : Option (Option ℤ)) : (Bool × Option Reason) × Jobs :=
  let r := is_job_running js id now
  if r.1 then
    ((false, some (.alreadyRunning id)), r.2)
  else
    let cooldown := pyOrCooldown minCooldownMinutes defaultCooldownMinutes
    match search with
    | some (some lastScrapeAt) =>
      let secondsSince := now - lastScrapeAt
      if secondsSince < 60 * cooldown then
        ((false, some (.cooldown (60 * cooldown - secondsSince))), r.2)
      else
        ((true, none), r.2)
    | _ => ((true, none), r.2)

end JobTracker

namespace Storage

/-- A row of the `scraped_content` table (Dedup Ledger), as written by
`LeadStorage.mark_content_scraped` (src/modules/database/storage.py). -/
structure ScrapedContent where
  keyword_search_id : String
  source : String
  source_id : String
  url : String
  processed_at : ℤ
  created_lead : Bool
deriving DecidableEq

/-- The `scraped_content` table. -/
abbrev ScrapedDB := List ScrapedContent

/-- Does a row match the composite key (search id, source, source id)?
This is the `and_(...)` filter used by both `mark_content_scraped` and
`has_content_been_scraped`. -/
def matchesKey (sid src srcId : String) (sc : ScrapedContent) : Bool :=
  decide (sc.keyword_search_id = sid) && decide (sc.source = src) &&
    decide (sc.source_id = srcId)

/-- Update the first row matching the composite key (the key is unique, so at
most one row matches). -/
def updateFirst (sid src srcId : String) (now : ℤ) (lead : Bool) :
    ScrapedDB → ScrapedDB
  | [] => []
  | sc :: rest =>
    if matchesKey sid src srcId sc then
      { sc with processed_at := now, created_lead := lead } :: rest
    else
      sc :: updateFirst sid src srcId now lead rest

/-- `LeadStorage.mark_content_scraped` (storage.py lines 471-537): upsert by
composite key — an existing row gets its `processed_at` and `created_lead`
updated, otherwise a new row is inserted. -/
def mark_content_scraped (db : ScrapedDB) (sid src srcId url : String)
    (created_lead : Bool) (now : ℤ) : ScrapedDB :=
  if (db.find? (matchesKey sid src srcId)).isSome then
    updateFirst sid src srcId now created_lead db
  else
    db ++ [{ keyword_search_id := sid, source := src, source_id := srcId,
             url := url, processed_at := now, created_lead := created_lead }]

/-- A candidate item as it reaches `filter_already_scraped`: a dict with
optional `source`, `id` and `source_id` keys (`none` = key absent). -/
structure RawItem where
  source : Option String
  id : Option String
  source_id : Option String
  url : String
deriving DecidableEq

/-- The composite key the filter derives from an item:
`source = item.get("source", "reddit")`, `source_id = item.get("id") or
item.get("source_id")`; `none` when the source id is absent or empty
(`if not source_id: continue`). -/
def itemKey (item : RawItem) : Option (String × String) :=
  let src := item.source.getD "reddit"
  match pyOrStr item.id item.source_id with
  | some s => if s = "" then none else some (src, s)
  | none => none

/-- The `(sc.source, sc.source_id)` pairs already recorded for a search
(the `scraped_ids` set in `filter_already_scraped`). -/
def scrapedKeys (db : ScrapedDB) (sid : String) : List (String × String) :=
  (db.filter (fun sc => decide (sc.keyword_search_id = sid))).map
    (fun sc => (sc.source, sc.source_id))

/-- `LeadStorage.filter_already_scraped` (storage.py lines 539-598): keep the
items that carry a usable source id and whose composite key has not been
recorded for this search. -/
def filter_already_scraped (db : ScrapedDB) (sid : String)
    (items : List RawItem) : List RawItem :=
  items.filter (fun item =>
    match itemKey item with
    | some key => !decide (key ∈ scrapedKeys db sid)
    | none => false)

/-- A row of the `keyword_searches` table, restricted to the fields the
scheduler and cooldown logic read (src/modules/database/models.py). -/
structure KeywordSearch where
  id : String
  enabled : Bool
  scraping_mode : String
  scraping_interval : Option String
  last_scrape_at : Option ℤ
  next_scrape_at : Option ℤ
  updated_at : ℤ
deriving DecidableEq

/-- The `keyword_searches` table: newest version of a row first, keyed by id. -/
abbrev SearchDB := List KeywordSearch

/-- `LeadStorage.get_keyword_search` (lookup by primary key). -/
def get_keyword_search (db : SearchDB) (id : String) : Option KeywordSearch :=
  db.find? (fun s => decide (s.id = id))

/-- `LeadStorage.save_keyword_search` (upsert by primary key, modelled as a
prepend that shadows the previous version). -/
def save_keyword_search (db : SearchDB) (s : KeywordSearch) : SearchDB :=
  s :: db

/-- `LeadStorage.get_due_keyword_searches` (storage.py lines 160-178):
`enabled == True and scraping_mode == "scheduled" and next_scrape_at <= now`
(a SQL `NULL` next-run compares as not due). -/
def get_due_keyword_searches (db : SearchDB) (now : ℤ) : List KeywordSearch :=
  db.filter (fun s =>
    s.enabled && decide (s.scraping_mode = "scheduled") &&
      (match s.next_scrape_at with
       | some t => decide (t ≤ now)
       | none => false))

end Storage

namespace Keywords

open Storage

/-- The `interval_map` of `KeywordSearchManager._calculate_next_scrape`
(src/modules/keywords/manager.py lines 181-195), in seconds; an unknown
interval string falls back to one hour. -/
def intervalSeconds (interval : String) : ℤ :=
  if interval = "30m" then 1800
  else if interval = "1h" then 3600
  else if interval = "6h" then 21600
  else if interval = "24h" then 86400
  else 3600

/-- `KeywordSearchManager._calculate_next_scrape`. -/
def calculate_next_scrape (fromTime : ℤ) (interval : String) : ℤ :=
  fromTime + intervalSeconds interval

/-- `KeywordSearchManager.mark_scraped` (manager.py lines 153-195): set the
last-run time to now, recompute the next-run time for scheduled searches with
a (truthy) interval, and save. -/
def mark_scraped (db : SearchDB) (id : String) (now : ℤ) : SearchDB :=
  match get_keyword_search db id with
  | none => db
  | some s =>
    let s1 := { s with last_scrape_at := some now }
    let next :=
      if s1.scraping_mode = "scheduled" ∧ strTruthy s1.scraping_interval then
        some (calculate_next_scrape now (s1.scraping_interval.getD "1h"))
      else s1.next_scrape_at
    save_keyword_search db { s1 with next_scrape_at := next, updated_at := now }

end Keywords

namespace Reddit

/-- Exceptions a single fetch attempt can raise
(src/modules/reddit/scraper.py).  The first six are the exception types
listed in the `retry_if_exception_type` tuple of the `@retry` decorator. -/
inductive ScrapeError where
  | requestException
  | serverError
  | responseException
  | connectionError
  | timeoutError
  | asyncioTimeout
  | other (name : String)
deriving DecidableEq

/-- Whether the `@retry` decorator retries this exception type
(`retry_if_exception_type((RequestException, ServerError, ResponseException,
ConnectionError, TimeoutError, asyncio.TimeoutError))`). -/
def isTransient : ScrapeError → Bool
  | .requestException => true
  | .serverError => true
  | .responseException => true
  | .connectionError => true
  | .timeoutError => true
  | .asyncioTimeout => true
  | .other _ => false

/-- One run of the tenacity-decorated `_retry_scrape`, with
`stop_after_attempt n` and `reraise=True`.  `f k` is the outcome of the k-th
single attempt (1-based).  `fuel` counts the retries still allowed after the
current attempt; the result is the number of attempts actually made paired
with the final outcome (the last exception is re-raised on exhaustion). -/
def retryGo (f : ℕ → Except ScrapeError α) : ℕ → ℕ → ℕ × Except ScrapeError α
  | i, 0 => (1, f i)
  | i, fuel + 1 =>
    match f i with
    | .ok a => (1, .ok a)
    | .error e =>
      if isTransient e then
        let r := retryGo f (i + 1) fuel
        (r.1 + 1, r.2)
      else
        (1, .error e)

/-- `_retry_scrape()` under `stop_after_attempt n` (`n ≥ 1` attempts in
total): attempt number together with the final result. -/
def retryCall (n : ℕ) (f : ℕ → Except ScrapeError α) : ℕ × Except ScrapeError α :=
  retryGo f 1 (n - 1)

/-- `RedditScraper.scrape_subreddit` (scraper.py lines 150-252): run the
retry-wrapped fetch; on success return the posts, on any final exception
(exhausted transient retries or a non-retryable error) log the failure and
return the empty list.  The second component is the logged error (`none`
when the scrape succeeded); the Python function itself only returns the
list and never raises. -/
def scrape_subreddit (n : ℕ) (f : ℕ → Except ScrapeError (List α)) :
    List α × Option ScrapeError :=
  match (retryCall n f).2 with
  | .ok posts => (posts, none)
  | .error e => ([], some e)

/-- `RedditScraper.scrape_post_comments` (scraper.py lines 290-359): same
shape as `scrape_subreddit`, for the comments of one post. -/
def scrape_post_comments (n : ℕ) (f : ℕ → Except ScrapeError (List α)) :
    List α × Option ScrapeError :=
  match (retryCall n f).2 with
  | .ok comments => (comments, none)
  | .error e => ([], some e)

/-- The fields of one `ScrapingMetrics` record touched by
`RedditScraper.scrape_posts` (src/modules/metrics/scraper_metrics.py). -/
structure ScrapingMetrics where
  subreddit : String
  posts_scraped : ℕ
  posts_failed : ℕ
  subreddits_succeeded : ℕ
  subreddits_failed : ℕ
  errors : List ScrapeError
deriving DecidableEq

/-- `RedditScraper.scrape_posts` (scraper.py lines 361-442): iterate the
configured subreddits (substituting `["all"]` when the list is empty), fetch
each through `scrape_subreddit`, accumulate the posts, and emit one metrics
record per subreddit.  Because `scrape_subreddit` catches every exception
internally and returns a list, the `except` branch of the loop body is
unreachable and every iteration records a success. -/
def scrape_posts (n : ℕ) (subreddits : List String)
    (fetch : String → ℕ → Except ScrapeError (List α)) :
    List α × List ScrapingMetrics :=
  let subs := if subreddits = [] then ["all"] else subreddits
  subs.foldl
    (fun acc sub =>
      let posts := (scrape_subreddit n (fetch sub)).1
      (acc.1 ++ posts,
       acc.2 ++ [{ subreddit := sub, posts_scraped := posts.length,
                   posts_failed := 0, subreddits_succeeded := 1,
                   subreddits_failed := 0, errors := [] }]))
    ([], [])

end Reddit

namespace RateLimiter

/-- Configuration of `GlobalRedditRateLimiter`
(src/modules/reddit/rate_limiter.py); the delay is in tenths of a second. -/
structure RLConfig where
  maxRequestsPerMinute : ℕ
  rateLimitDelay : ℤ
deriving DecidableEq

/-- Mutable state of the limiter: the deque of recent request timestamps
(oldest first) and the time of the last request. -/
structure RLState where
  requestTimestamps : List ℤ
  lastRequestTime : ℤ
deriving DecidableEq

/-- The fresh limiter: empty deque, `_last_request_time = 0.0`. -/
def rlInit : RLState := { requestTimestamps := [], lastRequestTime := 0 }

/-- `while self._request_timestamps and self._request_timestamps[0] < cutoff:
popleft()` — drop leading timestamps older than the cutoff. -/
def purgeOld : List ℤ → ℤ → List ℤ
  | [], _ => []
  | t :: rest, cutoff =>
    if t < cutoff then purgeOld rest cutoff else t :: rest

/-- `GlobalRedditRateLimiter.wait_if_needed` (rate_limiter.py lines 49-94),
with `asyncio.sleep d` modelled as advancing the clock by exactly `d`.
`now` is `time.time()` on entry; the result is the new state together with
the recorded request timestamp.  Steps: (1) sleep out the per-instance
delay; (2) purge entries older than one minute (`600` tenths); (3) if the
cap is reached, sleep `60 s − (now − oldest) + 0.1 s` (`600 - (now1 -
oldest) + 1` tenths) and purge again; (4) record the request.  (When the
cap is `0` the Python code would fault reading `[0]` of an empty deque; the
empty case below is unreachable for a positive cap.) -/
def wait_if_needed (cfg : RLConfig) (s : RLState) (now : ℤ) : RLState × ℤ :=
  let now1 := if now - s.lastRequestTime < cfg.rateLimitDelay
              then now + (cfg.rateLimitDelay - (now - s.lastRequestTime))
              else now
  let ts := purgeOld s.requestTimestamps (now1 - 600)
  if cfg.maxRequestsPerMinute ≤ ts.length then
    match ts with
    | [] => ({ requestTimestamps := [now1], lastRequestTime := now1 }, now1)
    | oldest :: rest =>
      let wait := 600 - (now1 - oldest) + 1
      if 0 < wait then
        let now2 := now1 + wait
        let ts2 := purgeOld (oldest :: rest) (now2 - 600)
        ({ requestTimestamps := ts2 ++ [now2], lastRequestTime := now2 }, now2)
      else
        ({ requestTimestamps := (oldest :: rest) ++ [now1], lastRequestTime := now1 }, now1)
  else
    ({ requestTimestamps := ts ++ [now1], lastRequestTime := now1 }, now1)

/-- A serialized sequence of `wait_if_needed` acquisitions, one per entry of
`calls` (the `time.time()` value observed when the caller obtains the lock);
returns the final state and the recorded request timestamps in order. -/
def runLimiter (cfg : RLConfig) : RLState → List ℤ → RLState × List ℤ
  | s, [] => (s, [])
  | s, t :: rest =>
    let r := wait_if_needed cfg s t
    let rr := runLimiter cfg r.1 rest
    (rr.1, r.2 :: rr.2)

/-- A call sequence is feasible when each caller observes `time.time()` no
earlier than the previous acquisition finished (the wall clock is monotone
and the lock serializes the calls). -/
def validCalls (cfg : RLConfig) : RLState → List ℤ → Bool
  | _, [] => true
  | s, t :: rest =>
    decide (s.lastRequestTime ≤ t) && validCalls cfg (wait_if_needed cfg s t).1 rest

/-- Proof-internal predicate: every acquisition in the history respects the
cap over the one-minute window ending at that acquisition — for each
decomposition `hist = pre ++ r :: post`, at most `cap` of the acquisitions
up to and including `r` lie in `[r − 60 s, r]`. -/
def WindowBound (cap : ℕ) (hist : List ℤ) : Prop :=
  ∀ pre r post, hist = pre ++ r :: post →
    (pre ++ [r]).countP (fun h => decide (r - 600 ≤ h)) ≤ cap

/-- Proof-internal invariant linking the limiter state to the history of
recorded acquisition timestamps. -/
structure Inv (cfg : RLConfig) (s : RLState) (hist : List ℤ) : Prop where
  sorted : List.Pairwise (· ≤ ·) hist
  hist_le : ∀ h ∈ hist, h ≤ s.lastRequestTime
  ts_eq : s.requestTimestamps =
    hist.filter (fun h => decide (s.lastRequestTime - 600 ≤ h))
  ts_len : s.requestTimestamps.length ≤ cfg.maxRequestsPerMinute
  window : WindowBound cfg.maxRequestsPerMinute hist

end RateLimiter

namespace Processor

open Storage

/-- One entry of `leads_data` as built in `process_keyword_search`
(src/core/processor.py, step 4), restricted to the fields the marking phase
reads. -/
structure LeadData where
  source : String
  source_id : String
  url : String
deriving DecidableEq

/-- The fields of an analyzed `LeadState` the marking phase reads
(`LeadAnalyzer.analyze_lead` copies them over from the input dict). -/
structure LeadState where
  source : String
  source_id : String
  url : String
deriving DecidableEq

/-- `LeadAnalyzer.analyze_leads` (src/modules/analyzer/lead_analyzer.py lines
165-193): analyze each candidate and keep the non-`None` results — a
candidate the classifier rejects (or whose analysis raises) is dropped. -/
def analyze_leads (analyze : LeadData → Option LeadState)
    (leadsData : List LeadData) : List LeadState :=
  leadsData.filterMap analyze

/-- Step 6 of `process_keyword_search` (processor.py lines 214-277): for every
analyzed lead, try to save it; mark its composite key with
`created_lead=True` when the save produced a lead, otherwise look up the
original item's URL and mark with `created_lead=False`.  `saveOk` models
`storage.save_lead` returning a stored lead (`false` = duplicate/rejected). -/
def store_and_mark (sid : String) (analyze : LeadData → Option LeadState)
    (saveOk : LeadState → Bool) (now : ℤ)
    (db : ScrapedDB) (leadsData : List LeadData) : ScrapedDB :=
  (analyze_leads analyze leadsData).foldl
    (fun db lead =>
      if saveOk lead then
        mark_content_scraped db sid lead.source lead.source_id lead.url true now
      else
        let url := match leadsData.find? (fun it => decide (it.source_id = lead.source_id)) with
          | some it => it.url
          | none => lead.url
        mark_content_scraped db sid lead.source lead.source_id url false now)
    db

end Processor

/-! ## Theorems -/

namespace JobTracker

/-- A write to the job table is visible to the next lookup of the same key. -/
theorem jobsGet_jobsSet_same (js : Jobs) (id : String) (j : Job) :
    jobsGet (jobsSet js id j) id = some j := by
  simp [jobsGet, jobsSet, List.find?_cons]

/-- Unfolding of `is_job_running` when the lookup hits a job. -/
theorem is_job_running_of_get {js : Jobs} {id : String} {job : Job} (now : ℤ)
    (hget : jobsGet js id = some job) :
    is_job_running js id now =
      if job.status = .running ∨ job.status = .starting then
        match job.started_at with
        | some s =>
          if now - s > 7200 then
            (false, mark_job_failed js id "Job timed out after 2 hours" now)
          else (true, js)
        | none => (true, js)
      else (false, js) := by
  unfold is_job_running
  rw [hget]

/-- C7: A tracked job with status `running` whose start time lies more than
7200 seconds (two hours) in the past is reported as not running by
`is_job_running` without any `complete_job` call, and as a side effect the
job is transitioned to status `failed` with the timeout error text and a
completion time. -/
theorem is_job_running_stale_self_heal (js : Jobs) (id : String) (now : ℤ)
    (job : Job) (s : ℤ)
    (hget : jobsGet js id = some job) (hst : job.status = .running)
    (hstart : job.started_at = some s) (hlate : now - s > 7200) :
    (is_job_running js id now).1 = false ∧
      jobsGet (is_job_running js id now).2 id =
        some { job with status := .failed,
                        error := some "Job timed out after 2 hours",
                        completed_at := some now } := by
  have hrun : is_job_running js id now =
      (false, mark_job_failed js id "Job timed out after 2 hours" now) := by
    rw [is_job_running_of_get now hget, if_pos (Or.inl hst), hstart]
    simp [hlate]
  refine ⟨by rw [hrun], ?_⟩
  rw [hrun]
  unfold mark_job_failed
  rw [hget]
  exact jobsGet_jobsSet_same ..

/-- C7 witness: a job started at time 0 and inspected at time 7201 is reaped. -/
theorem is_job_running_stale_self_heal_witness :
    (is_job_running [("s", ⟨.running, some 0, none, none⟩)] "s" 7201).1 = false ∧
      jobsGet (is_job_running [("s", ⟨.running, some 0, none, none⟩)] "s" 7201).2 "s" =
        some ⟨.failed, some 0, some 7201, some "Job timed out after 2 hours"⟩ :=
  is_job_running_stale_self_heal [("s", ⟨.running, some 0, none, none⟩)] "s" 7201
    ⟨.running, some 0, none, none⟩ 0 (by decide) (by decide) (by decide) (by decide)

/-- C1 counterexample: the claim as stated is false.  `start_job` succeeds at
time 0 and, with no intervening `complete_job`, a second `start_job` at time
7201 (more than two hours later) also succeeds, because `is_job_running`
reaps the first job as stale. -/
theorem start_job_double_success_counterexample :
    (start_job [] "s" 0).1 = true ∧
      (start_job (start_job [] "s" 0).2 "s" 7201).1 = true := by
  decide

/-- C1 (amended): if `start_job` returns `True`, a second `start_job` for the
same search id made before any `complete_job` and no more than 7200 seconds
(the stale-job ceiling) after the first start returns `False`. -/
theorem start_job_mutual_exclusion_within_timeout (js : Jobs) (id : String)
    (t1 t2 : ℤ) (h1 : (start_job js id t1).1 = true) (h2 : t2 - t1 ≤ 7200) :
    (start_job (start_job js id t1).2 id t2).1 = false := by
  have hr : (is_job_running js id t1).1 = false := by
    by_contra h
    rw [Bool.not_eq_false] at h
    unfold start_job at h1
    simp [h] at h1
  have e1 : (start_job js id t1).2 =
      jobsSet (is_job_running js id t1).2 id ⟨.running, some t1, none, none⟩ := by
    unfold start_job
    simp [hr]
  have hg : jobsGet (jobsSet (is_job_running js id t1).2 id
      ⟨.running, some t1, none, none⟩) id = some ⟨.running, some t1, none, none⟩ :=
    jobsGet_jobsSet_same ..
  generalize hjs2 : (start_job js id t1).2 = js2 at e1 ⊢
  have hrun2 : (is_job_running js2 id t2).1 = true := by
    rw [e1, is_job_running_of_get t2 hg]
    have hn : ¬(t2 - t1 > 7200) := not_lt.mpr h2
    simp [hn]
  unfold start_job
  simp [hrun2]

/-- C1 witness for the amended statement: second start 7200 s after the first
(still inside the ceiling) fails. -/
theorem start_job_mutual_exclusion_within_timeout_witness :
    (start_job [] "s" 0).1 = true ∧
      (start_job (start_job [] "s" 0).2 "s" 7200).1 = false :=
  ⟨by decide, start_job_mutual_exclusion_within_timeout [] "s" 0 7200 (by decide) (by decide)⟩

/-- C6: with no running job for the search id, `can_start_job` on a search
with a recorded last-run time `t` refuses exactly when `now − t` is less
than the cooldown (60 · cooldown-minutes seconds), reporting the remaining
wait, and permits otherwise — in particular at the exact boundary; with no
recorded last-run time (or no stored search) it permits. -/
theorem can_start_job_cooldown_boundary (js : Jobs) (id : String) (now : ℤ)
    (minCd : Option ℤ) (defCd : ℤ)
    (hrun : (is_job_running js id now).1 = false) :
    (∀ t : ℤ, (can_start_job js id now minCd defCd (some (some t))).1 =
      if now - t < 60 * pyOrCooldown minCd defCd then
        (false, some (Reason.cooldown (60 * pyOrCooldown minCd defCd - (now - t))))
      else (true, none))
    ∧ (can_start_job js id now minCd defCd (some none)).1 = (true, none)
    ∧ (can_start_job js id now minCd defCd none).1 = (true, none) := by
  refine ⟨fun t => ?_, ?_, ?_⟩ <;>
    · unfold can_start_job
      simp only [hrun, Bool.false_eq_true, if_false]
      try split <;> rfl

/-- C6 witness: cooldown 1 minute, last run 30 s ago at `now = 100` — refused
with 30 s remaining; last run 60 s ago — permitted at the exact boundary. -/
theorem can_start_job_cooldown_boundary_witness :
    (is_job_running [] "s" 100).1 = false ∧
      (can_start_job [] "s" 100 none 1 (some (some 70))).1 =
        (false, some (Reason.cooldown 30)) ∧
      (can_start_job [] "s" 100 none 1 (some (some 40))).1 = (true, none) := by
  refine ⟨by decide, ?_, ?_⟩
  · exact ((can_start_job_cooldown_boundary [] "s" 100 none 1 (by decide)).1 70).trans
      (by decide)
  · exact ((can_start_job_cooldown_boundary [] "s" 100 none 1 (by decide)).1 40).trans
      (by decide)

end JobTracker

namespace Storage

/-- After updating the row matching a composite key in place, the key is
still among the recorded keys for the search. -/
theorem updateFirst_mem_scrapedKeys (sid src srcId : String) (now : ℤ)
    (lead : Bool) (db : ScrapedDB)
    (h : (db.find? (matchesKey sid src srcId)).isSome) :
    (src, srcId) ∈ scrapedKeys (updateFirst sid src srcId now lead db) sid := by
  induction db with
  | nil => simp at h
  | cons sc rest ih =>
    by_cases hm : matchesKey sid src srcId sc
    · obtain ⟨⟨hk1, hk2⟩, hk3⟩ :
          (sc.keyword_search_id = sid ∧ sc.source = src) ∧ sc.source_id = srcId := by
        simpa [matchesKey] using hm
      simp [updateFirst, hm, scrapedKeys, List.filter_cons, hk1, hk2, hk3]
    · have hm' : matchesKey sid src srcId sc = false := by
        rw [Bool.eq_false_iff]; exact hm
      rw [List.find?_cons] at h
      simp only [hm'] at h
      have hrec := ih h
      unfold updateFirst
      rw [hm']
      simp only [Bool.false_eq_true, if_false]
      by_cases hk : sc.keyword_search_id = sid
      · simp only [scrapedKeys, List.filter_cons, hk] at hrec ⊢
        simp only [decide_True, if_true, List.map_cons, List.mem_cons]
        exact Or.inr hrec
      · simp only [scrapedKeys, List.filter_cons, hk] at hrec ⊢
        simpa using hrec

/-- `mark_content_scraped` always leaves the composite key recorded. -/
theorem mark_content_scraped_mem_scrapedKeys (db : ScrapedDB)
    (sid src srcId url : String) (lead : Bool) (now : ℤ) :
    (src, srcId) ∈ scrapedKeys (mark_content_scraped db sid src srcId url lead now) sid := by
  unfold mark_content_scraped
  by_cases h : (db.find? (matchesKey sid src srcId)).isSome
  · rw [if_pos h]
    exact updateFirst_mem_scrapedKeys sid src srcId now lead db h
  · rw [if_neg h]
    simp [scrapedKeys, List.filter_append, List.map_append]

/-- An item whose composite key is already recorded is dropped by the filter. -/
theorem not_mem_filter_of_key_scraped {db : ScrapedDB} {sid : String}
    {item : RawItem} {key : String × String} (hk : itemKey item = some key)
    (hmem : key ∈ scrapedKeys db sid) (items : List RawItem) :
    item ∉ filter_already_scraped db sid items := by
  intro hin
  have := (List.mem_filter.mp hin).2
  rw [hk] at this
  simp [hmem] at this

/-- C3: if `filter_already_scraped` returns an item carrying the composite
key `(src, srcId)`, and `mark_content_scraped` is then called for that key,
a second `filter_already_scraped` for the same search id never returns the
item again, whatever candidate list it is given. -/
theorem dedup_filter_mark_filter_roundtrip (db : ScrapedDB) (sid : String)
    (items : List RawItem) (item : RawItem) (src srcId url : String)
    (lead : Bool) (now : ℤ)
    (hfirst : item ∈ filter_already_scraped db sid items)
    (hkey : itemKey item = some (src, srcId)) :
    ∀ items2 : List RawItem,
      item ∉ filter_already_scraped
        (mark_content_scraped db sid src srcId url lead now) sid items2 :=
  fun items2 =>
    not_mem_filter_of_key_scraped hkey
      (mark_content_scraped_mem_scrapedKeys db sid src srcId url lead now) items2

/-- C3 witness: a fresh item passes the first filter, is marked, and is then
filtered out of the identical second candidate list. -/
theorem dedup_filter_mark_filter_roundtrip_witness :
    (⟨some "reddit", some "p1", none, "u"⟩ : RawItem) ∈
        filter_already_scraped [] "s1" [⟨some "reddit", some "p1", none, "u"⟩] ∧
      (⟨some "reddit", some "p1", none, "u"⟩ : RawItem) ∉
        filter_already_scraped
          (mark_content_scraped [] "s1" "reddit" "p1" "u" false 5) "s1"
          [⟨some "reddit", some "p1", none, "u"⟩] :=
  ⟨by decide,
    dedup_filter_mark_filter_roundtrip [] "s1" [⟨some "reddit", some "p1", none, "u"⟩]
      ⟨some "reddit", some "p1", none, "u"⟩ "reddit" "p1" "u" false 5
      (by decide) (by decide) [⟨some "reddit", some "p1", none, "u"⟩]⟩

end Storage

namespace Keywords

open Storage

/-- C9: (a) the due-search query returns exactly the searches that are
enabled, in `scheduled` mode and whose next-run time exists and is ≤ now;
(b) after `mark_scraped` at time `now`, a scheduled search with a non-empty
interval has its last-run set to `now` and its next-run equal to
`now + interval` (the new last-run plus the configured interval). -/
theorem scheduler_due_selection_and_reschedule :
    (∀ (db : SearchDB) (now : ℤ) (s : KeywordSearch),
      s ∈ get_due_keyword_searches db now ↔
        s ∈ db ∧ s.enabled = true ∧ s.scraping_mode = "scheduled" ∧
          ∃ t, s.next_scrape_at = some t ∧ t ≤ now)
    ∧ (∀ (db : SearchDB) (id : String) (now : ℤ) (s : KeywordSearch) (iv : String),
        get_keyword_search db id = some s →
        s.scraping_mode = "scheduled" → s.scraping_interval = some iv → iv ≠ "" →
        get_keyword_search (mark_scraped db id now) id =
          some { s with last_scrape_at := some now,
                        next_scrape_at := some (now + intervalSeconds iv),
                        updated_at := now }) := by
  constructor
  · intro db now s
    unfold get_due_keyword_searches
    rw [List.mem_filter]
    constructor
    · rintro ⟨hm, hp⟩
      refine ⟨hm, ?_⟩
      cases hnext : s.next_scrape_at with
      | none => rw [hnext] at hp; simp at hp
      | some t =>
        rw [hnext] at hp
        simp only [Bool.and_eq_true, decide_eq_true_eq] at hp
        exact ⟨hp.1.1, hp.1.2, t, rfl, hp.2⟩
    · rintro ⟨hm, he, hs, t, hnext, ht⟩
      refine ⟨hm, ?_⟩
      rw [hnext]
      simp [he, hs, ht]
  · intro db id now s iv hget hmode hiv hne
    have hid : s.id = id := by
      have := List.find?_some hget
      simpa using this
    have hcond : s.scraping_mode = "scheduled" ∧ strTruthy s.scraping_interval = true :=
      ⟨hmode, by simp [strTruthy, hiv, hne]⟩
    simp only [mark_scraped, hget]
    rw [if_pos hcond]
    simp only [save_keyword_search, get_keyword_search, List.find?_cons]
    simp [hid, hiv, calculate_next_scrape]

/-- C9 witness: one due search is selected; after `mark_scraped` at `now=50`
with a 30-minute interval, last-run is 50 and next-run is 1850. -/
theorem scheduler_due_selection_and_reschedule_witness :
    ((⟨"a", true, "scheduled", some "30m", none, some 5, 0⟩ : Storage.KeywordSearch) ∈
        get_due_keyword_searches [⟨"a", true, "scheduled", some "30m", none, some 5, 0⟩] 10)
    ∧ get_keyword_search
        (mark_scraped [⟨"a", true, "scheduled", some "30m", none, some 5, 0⟩] "a" 50) "a" =
        some ⟨"a", true, "scheduled", some "30m", some 50, some 1850, 50⟩ := by
  constructor
  · exact (scheduler_due_selection_and_reschedule.1
      [⟨"a", true, "scheduled", some "30m", none, some 5, 0⟩] 10
      ⟨"a", true, "scheduled", some "30m", none, some 5, 0⟩).mpr
      ⟨by decide, by decide, by decide, 5, by decide, by decide⟩
  · exact (scheduler_due_selection_and_reschedule.2
      [⟨"a", true, "scheduled", some "30m", none, some 5, 0⟩] "a" 50
      ⟨"a", true, "scheduled", some "30m", none, some 5, 0⟩ "30m"
      (by decide) (by decide) (by decide) (by decide)).trans (by decide)

end Keywords

namespace Reddit

/-- If every attempt fails with the same transient error, the retry loop
uses all its fuel and re-raises that error. -/
theorem retryGo_const_error {α : Type} (f : ℕ → Except ScrapeError α)
    (e : ScrapeError) (hf : ∀ k, f k = .error e) (ht : isTransient e = true) :
    ∀ (fuel i : ℕ), retryGo f i fuel = (fuel + 1, Except.error e) := by
  intro fuel
  induction fuel with
  | zero => intro i; simp [retryGo, hf i]
  | succ m ih => intro i; simp [retryGo, hf i, ht, ih (i + 1)]

/-- C5: with `stop_after_attempt n` (`n ≥ 1`), a fetch that always raises a
transient error is attempted exactly `n` times — never an `(n+1)`-th time —
after which `scrape_subreddit` records the failure (logs the final error)
and yields no items instead of aborting; a non-transient error is not
retried at all (exactly one attempt). -/
theorem retry_ceiling_exact_attempts :
    (∀ (α : Type) (n : ℕ) (f : ℕ → Except ScrapeError (List α)) (e : ScrapeError),
      1 ≤ n → (∀ k, f k = .error e) → isTransient e = true →
      (retryCall n f).1 = n ∧ scrape_subreddit n f = ([], some e))
    ∧ (∀ (α : Type) (n : ℕ) (f : ℕ → Except ScrapeError (List α)) (e : ScrapeError),
      f 1 = .error e → isTransient e = false →
      (retryCall n f).1 = 1 ∧ scrape_subreddit n f = ([], some e)) := by
  constructor
  · intro α n f e hn hf ht
    have h : retryCall n f = (n - 1 + 1, Except.error e) := by
      unfold retryCall
      exact retryGo_const_error f e hf ht (n - 1) 1
    constructor
    · rw [h]; omega
    · unfold scrape_subreddit
      rw [h]
  · intro α n f e hf ht
    have h : retryCall n f = (1, Except.error e) := by
      unfold retryCall
      cases hn : n - 1 with
      | zero => simp [retryGo, hf]
      | succ m => simp [retryGo, hf, ht]
    constructor
    · rw [h]
    · unfold scrape_subreddit
      rw [h]

/-- C5 witness: with 3 configured attempts, a permanently busy server is
tried exactly 3 times and a non-retryable error exactly once. -/
theorem retry_ceiling_exact_attempts_witness :
    ((retryCall 3 (fun _ => (Except.error .serverError : Except ScrapeError (List ℕ)))).1 = 3
      ∧ scrape_subreddit 3 (fun _ => (Except.error .serverError : Except ScrapeError (List ℕ))) =
          ([], some .serverError))
    ∧ ((retryCall 3 (fun _ => (Except.error (.other "ValueError") :
          Except ScrapeError (List ℕ)))).1 = 1
      ∧ scrape_subreddit 3 (fun _ => (Except.error (.other "ValueError") :
          Except ScrapeError (List ℕ))) = ([], some (.other "ValueError"))) :=
  ⟨retry_ceiling_exact_attempts.1 ℕ 3 (fun _ => Except.error .serverError) .serverError
      (by decide) (fun _ => rfl) (by decide),
    retry_ceiling_exact_attempts.2 ℕ 3 (fun _ => Except.error (.other "ValueError"))
      (.other "ValueError") rfl (by decide)⟩

/-- C10: whenever the retry-wrapped fetch ultimately fails — transient
retries exhausted or a non-transient error — `scrape_subreddit` and
`scrape_post_comments` swallow the exception and return the empty list
(with only a log entry), so to their caller a failed target looks exactly
like a target that yielded zero items; they never raise. -/
theorem platform_fetch_empty_on_failure :
    (∀ (α : Type) (n : ℕ) (f : ℕ → Except ScrapeError (List α)) (e : ScrapeError),
      (retryCall n f).2 = .error e → scrape_subreddit n f = ([], some e))
    ∧ (∀ (α : Type) (n : ℕ) (f : ℕ → Except ScrapeError (List α)) (e : ScrapeError),
      (retryCall n f).2 = .error e → scrape_post_comments n f = ([], some e)) := by
  constructor
  · intro α n f e h
    unfold scrape_subreddit
    rw [h]
  · intro α n f e h
    unfold scrape_post_comments
    rw [h]

/-- C10 witness: a permanently failing fetch yields the empty list from both
entry points. -/
theorem platform_fetch_empty_on_failure_witness :
    scrape_subreddit 2 (fun _ => (Except.error .timeoutError : Except ScrapeError (List ℕ))) =
        ([], some .timeoutError)
    ∧ scrape_post_comments 2 (fun _ => (Except.error (.other "KeyError") :
        Except ScrapeError (List ℕ))) = ([], some (.other "KeyError")) :=
  ⟨platform_fetch_empty_on_failure.1 ℕ 2 (fun _ => Except.error .timeoutError)
      .timeoutError rfl,
    platform_fetch_empty_on_failure.2 ℕ 2 (fun _ => Except.error (.other "KeyError"))
      (.other "KeyError") rfl⟩

/-- C4 counterexample: three targets, the connector permanently fails on the
second.  All items from targets 1 and 3 are returned and nothing raises,
but target 2's metrics record a SUCCESS (`subreddits_failed = 0`, no error
text): the failure never reaches `scrape_posts`' failure-recording branch,
because `scrape_subreddit` swallows it and returns an empty list. -/
theorem scrape_posts_no_failure_record_counterexample :
    scrape_posts 3 ["a", "b", "c"]
        (fun sub _ =>
          if sub = "b" then (Except.error .serverError : Except ScrapeError (List ℕ))
          else if sub = "a" then Except.ok [10] else Except.ok [30]) =
      ([10, 30],
        [⟨"a", 1, 0, 1, 0, []⟩, ⟨"b", 0, 0, 1, 0, []⟩, ⟨"c", 1, 0, 1, 0, []⟩]) := by
  decide

/-- C4 (amended): for a 3-target search where the fetch for target 2
ultimately fails and targets 1 and 3 succeed, `scrape_posts` returns all
items obtained from targets 1 and 3 and does not raise; target 2
contributes no items, and its per-target metrics record zero posts scraped
and a success with an empty error list — no failure record, since the
per-target fetch swallows the error internally. -/
theorem scrape_posts_partial_failure_isolation (α : Type) (n : ℕ)
    (t1 t2 t3 : String) (fetch : String → ℕ → Except ScrapeError (List α))
    (e : ScrapeError) (p1 p3 : List α)
    (h1 : (retryCall n (fetch t1)).2 = .ok p1)
    (h2 : (retryCall n (fetch t2)).2 = .error e)
    (h3 : (retryCall n (fetch t3)).2 = .ok p3) :
    scrape_posts n [t1, t2, t3] fetch =
      (p1 ++ p3,
        [⟨t1, p1.length, 0, 1, 0, []⟩, ⟨t2, 0, 0, 1, 0, []⟩,
          ⟨t3, p3.length, 0, 1, 0, []⟩]) := by
  unfold scrape_posts
  rw [if_neg (by simp)]
  simp [scrape_subreddit, h1, h2, h3]

/-- C4 witness for the amended statement. -/
theorem scrape_posts_partial_failure_isolation_witness :
    scrape_posts 2 ["x", "y", "z"]
        (fun sub _ =>
          if sub = "y" then (Except.error .requestException : Except ScrapeError (List ℕ))
          else if sub = "x" then Except.ok [5, 6] else Except.ok [7]) =
      ([5, 6, 7],
        [⟨"x", 2, 0, 1, 0, []⟩, ⟨"y", 0, 0, 1, 0, []⟩, ⟨"z", 1, 0, 1, 0, []⟩]) :=
  (scrape_posts_partial_failure_isolation ℕ 2 "x" "y" "z"
      (fun sub _ =>
        if sub = "y" then (Except.error .requestException : Except ScrapeError (List ℕ))
        else if sub = "x" then Except.ok [5, 6] else Except.ok [7])
      .requestException [5, 6] [7] rfl rfl rfl).trans (by decide)

end Reddit

namespace Processor

open Storage

/-- C8 (code bug): a candidate that passes the dedup filter and enters
analysis but is rejected by the analyzer (`analyze_lead` returns `None`,
e.g. the classifier deems it invalid) is NEVER marked in the Dedup Ledger:
starting from an empty ledger, processing one such candidate leaves the
ledger empty, and a subsequent run's `filter_already_scraped` returns the
same item again for re-analysis — contradicting the documented intent that
every analyzed candidate is marked (`created_lead=False` for non-leads). -/
theorem unanalyzed_candidate_never_marked :
    store_and_mark "s1" (fun _ => none) (fun _ => true) 0 [] [⟨"reddit", "abc", "u"⟩] = []
    ∧ filter_already_scraped
        (store_and_mark "s1" (fun _ => none) (fun _ => true) 0 [] [⟨"reddit", "abc", "u"⟩])
        "s1" [⟨some "reddit", some "abc", none, "u"⟩] =
        [⟨some "reddit", some "abc", none, "u"⟩] := by
  decide

end Processor

namespace RateLimiter

/-- On a nondecreasing list, the purge loop removes exactly the entries below
the cutoff. -/
theorem purgeOld_eq_filter (c : ℤ) (ts : List ℤ)
    (hsort : List.Pairwise (· ≤ ·) ts) :
    purgeOld ts c = ts.filter (fun x => decide (c ≤ x)) := by
  induction ts with
  | nil => rfl
  | cons t rest ih =>
    rw [List.pairwise_cons] at hsort
    by_cases h : t < c
    · rw [purgeOld, if_pos h, List.filter_cons]
      have hnc : ¬(c ≤ t) := not_le.mpr h
      simp only [hnc, decide_False, Bool.false_eq_true, if_false]
      exact ih hsort.2
    · rw [purgeOld, if_neg h, List.filter_cons]
      have hct : c ≤ t := not_lt.mp h
      simp only [hct, decide_True, if_true]
      congr 1
      symm
      rw [List.filter_eq_self]
      intro a ha
      exact decide_eq_true (le_trans hct (hsort.1 a ha))

/-- Filtering by a later cutoff absorbs a filter by an earlier one. -/
theorem filter_absorb (hist : List ℤ) (c d : ℤ) (hcd : c ≤ d) :
    (hist.filter (fun h => decide (c ≤ h))).filter (fun h => decide (d ≤ h)) =
      hist.filter (fun h => decide (d ≤ h)) := by
  rw [List.filter_filter]
  apply List.filter_congr
  intro a _
  by_cases h : d ≤ a
  · simp [h, le_trans hcd h]
  · simp [h]

/-- `WindowBound` extends to one more acquisition when the window ending at
the new acquisition also respects the cap. -/
theorem windowBound_append (cap : ℕ) (hist : List ℤ) (x : ℤ)
    (hwb : WindowBound cap hist)
    (hx : (hist ++ [x]).countP (fun h => decide (x - 600 ≤ h)) ≤ cap) :
    WindowBound cap (hist ++ [x]) := by
  intro pre r post heq
  induction post using List.reverseRecOn with
  | nil =>
    obtain ⟨h1, h2⟩ := List.append_inj' heq rfl
    obtain rfl : x = r := by simpa using h2
    rw [← h1]
    exact hx
  | append_singleton ps y _ =>
    rw [show pre ++ r :: (ps ++ [y]) = (pre ++ r :: ps) ++ [y] by simp] at heq
    obtain ⟨h1, h2⟩ := List.append_inj' heq rfl
    exact hwb pre r ps h1

/-- Recording an acquisition at time `r` preserves the limiter invariant,
provided the in-window history together with the new acquisition stays
within the cap. -/
theorem record_inv (cfg : RLConfig) (hist : List ℤ) (r : ℤ)
    (hsort : List.Pairwise (· ≤ ·) hist) (hle : ∀ h ∈ hist, h ≤ r)
    (hwb : WindowBound cfg.maxRequestsPerMinute hist)
    (hcnt : (hist.filter (fun h => decide (r - 600 ≤ h))).length + 1 ≤
      cfg.maxRequestsPerMinute) :
    Inv cfg ⟨hist.filter (fun h => decide (r - 600 ≤ h)) ++ [r], r⟩ (hist ++ [r]) := by
  have hfr0 : r - (600:ℤ) ≤ r := by omega
  have hfr : decide (r - (600:ℤ) ≤ r) = true := decide_eq_true hfr0
  constructor
  · rw [List.pairwise_append]
    refine ⟨hsort, List.pairwise_singleton _ _, fun a ha b hb => ?_⟩
    rw [List.mem_singleton] at hb
    subst hb
    exact hle a ha
  · intro h hh
    rw [List.mem_append, List.mem_singleton] at hh
    cases hh with
    | inl h1 => exact hle h h1
    | inr h1 => exact le_of_eq h1
  · show hist.filter (fun h => decide (r - 600 ≤ h)) ++ [r] = _
    rw [List.filter_append]
    congr 1
    rw [List.filter_cons, List.filter_nil]
    simp only [hfr, if_true]
  · show (hist.filter (fun h => decide (r - 600 ≤ h)) ++ [r]).length ≤ _
    rw [List.length_append]
    simpa using hcnt
  · apply windowBound_append _ _ _ hwb
    rw [List.countP_append, List.countP_eq_length_filter]
    have h1 : List.countP (fun h => decide (r - 600 ≤ h)) [r] = 1 := by
      rw [List.countP_cons, List.countP_nil]
      simp only [hfr, if_true]
    rw [h1]
    exact hcnt

/-- One acquisition preserves the invariant: the recorded timestamp is
appended to the history and the new state stays linked to it. -/
theorem wait_if_needed_inv (cfg : RLConfig) (s : RLState) (hist : List ℤ)
    (now : ℤ) (hcap : 1 ≤ cfg.maxRequestsPerMinute)
    (hinv : Inv cfg s hist) (hnow : s.lastRequestTime ≤ now) :
    Inv cfg (wait_if_needed cfg s now).1 (hist ++ [(wait_if_needed cfg s now).2]) := by
  obtain ⟨hsort, hle, hts, hlen, hwb⟩ := hinv
  set now1 := if now - s.lastRequestTime < cfg.rateLimitDelay
      then now + (cfg.rateLimitDelay - (now - s.lastRequestTime)) else now with hdefnow1
  have h1 : s.lastRequestTime ≤ now1 := by
    rw [hdefnow1]
    split
    · omega
    · exact hnow
  have hle1 : ∀ h ∈ hist, h ≤ now1 := fun h hh => le_trans (hle h hh) h1
  have hsortts : List.Pairwise (· ≤ ·) s.requestTimestamps := by
    rw [hts]; exact hsort.filter _
  have hpurge : purgeOld s.requestTimestamps (now1 - 600) =
      hist.filter (fun h => decide (now1 - 600 ≤ h)) := by
    rw [purgeOld_eq_filter _ _ hsortts, hts, filter_absorb hist _ _ (by omega)]
  have hlenf : (hist.filter (fun h => decide (now1 - 600 ≤ h))).length ≤
      cfg.maxRequestsPerMinute := by
    rw [← hpurge, purgeOld_eq_filter _ _ hsortts]
    exact le_trans (List.length_filter_le _ _) hlen
  by_cases hat : cfg.maxRequestsPerMinute ≤
      (hist.filter (fun h => decide (now1 - 600 ≤ h))).length
  · -- cap reached: sleep until the oldest in-window entry expires, re-purge, record
    obtain ⟨oldest, rest, hor⟩ :
        ∃ o r, hist.filter (fun h => decide (now1 - 600 ≤ h)) = o :: r := by
      cases hf : hist.filter (fun h => decide (now1 - 600 ≤ h)) with
      | nil => rw [hf] at hat; simp at hat; omega
      | cons o r => exact ⟨o, r, rfl⟩
    have homem : oldest ∈ hist ∧ decide (now1 - 600 ≤ oldest) = true :=
      List.mem_filter.mp (by rw [hor]; exact List.mem_cons_self oldest rest)
    have ho1 : now1 - 600 ≤ oldest := of_decide_eq_true homem.2
    have hsf : List.Pairwise (· ≤ ·) (oldest :: rest) := by
      rw [← hor]; exact hsort.filter _
    have hat2 : cfg.maxRequestsPerMinute ≤ (oldest :: rest).length := by
      rw [← hor]; exact hat
    have hwait : (0:ℤ) < 600 - (now1 - oldest) + 1 := by omega
    have harith : now1 + (600 - (now1 - oldest) + 1) = oldest + 601 := by omega
    have hpurge2 : purgeOld (oldest :: rest) (oldest + 601 - 600) =
        hist.filter (fun h => decide (oldest + 601 - 600 ≤ h)) := by
      rw [purgeOld_eq_filter _ _ hsf, ← hor, filter_absorb hist _ _ (by omega)]
    have heq : wait_if_needed cfg s now =
        ({ requestTimestamps :=
            hist.filter (fun h => decide (oldest + 601 - 600 ≤ h)) ++ [oldest + 601],
           lastRequestTime := oldest + 601 }, oldest + 601) := by
      simp only [wait_if_needed]
      rw [← hdefnow1, hpurge, hor, if_pos hat2]
      simp only [harith, hpurge2, hwait, if_true]
    rw [heq]
    have hcnt : (hist.filter (fun h => decide (oldest + 601 - 600 ≤ h))).length + 1 ≤
        cfg.maxRequestsPerMinute := by
      have hsub : hist.filter (fun h => decide (oldest + 601 - 600 ≤ h)) =
          List.filter (fun h => decide (oldest + 601 - 600 ≤ h)) (oldest :: rest) := by
        rw [← hor, filter_absorb hist _ _ (by omega)]
      rw [hsub, List.filter_cons]
      have hno : ¬(oldest + 601 - 600 ≤ oldest) := by omega
      simp only [hno, decide_False, Bool.false_eq_true, if_false]
      have hr1 := List.length_filter_le (fun h => decide (oldest + 601 - 600 ≤ h)) rest
      have hr2 : (oldest :: rest).length ≤ cfg.maxRequestsPerMinute := by
        rw [← hor]; exact hlenf
      simp only [List.length_cons] at hr2
      omega
    exact record_inv cfg hist (oldest + 601) hsort
      (fun h hh => by have := hle1 h hh; omega) hwb hcnt
  · -- below the cap: record immediately
    have heq : wait_if_needed cfg s now =
        ({ requestTimestamps :=
            hist.filter (fun h => decide (now1 - 600 ≤ h)) ++ [now1],
           lastRequestTime := now1 }, now1) := by
      simp only [wait_if_needed]
      rw [← hdefnow1, hpurge, if_neg hat]
    rw [heq]
    exact record_inv cfg hist now1 hsort hle1 hwb (by omega)

/-- The invariant carries over any feasible trace of acquisitions. -/
theorem runLimiter_inv (cfg : RLConfig) (hcap : 1 ≤ cfg.maxRequestsPerMinute) :
    ∀ (calls : List ℤ) (s : RLState) (hist : List ℤ),
      Inv cfg s hist → validCalls cfg s calls = true →
      Inv cfg (runLimiter cfg s calls).1 (hist ++ (runLimiter cfg s calls).2) := by
  intro calls
  induction calls with
  | nil =>
    intro s hist hinv _
    simpa [runLimiter] using hinv
  | cons t rest ih =>
    intro s hist hinv hvalid
    rw [validCalls, Bool.and_eq_true, decide_eq_true_eq] at hvalid
    have hstep := wait_if_needed_inv cfg s hist t hcap hinv hvalid.1
    have hrec := ih (wait_if_needed cfg s t).1 (hist ++ [(wait_if_needed cfg s t).2])
      hstep hvalid.2
    simp only [runLimiter]
    rw [show hist ++ (wait_if_needed cfg s t).2 ::
          (runLimiter cfg (wait_if_needed cfg s t).1 rest).2 =
        (hist ++ [(wait_if_needed cfg s t).2]) ++
          (runLimiter cfg (wait_if_needed cfg s t).1 rest).2 by simp]
    exact hrec

/-- On a nondecreasing history in which every acquisition's trailing
one-minute window holds at most `cap` entries, EVERY one-minute window holds
at most `cap` entries. -/
theorem countP_window_le (cap : ℕ) (a : ℤ) :
    ∀ hist : List ℤ, List.Pairwise (· ≤ ·) hist → WindowBound cap hist →
      hist.countP (fun r => decide (a ≤ r ∧ r ≤ a + 600)) ≤ cap := by
  intro hist
  induction hist using List.reverseRecOn with
  | nil => intro _ _; simp
  | append_singleton l x ih =>
    intro hsort hwb
    by_cases hx : a ≤ x ∧ x ≤ a + 600
    · have hmono : ∀ y ∈ l ++ [x],
          (fun r => decide (a ≤ r ∧ r ≤ a + 600)) y = true →
            (fun h => decide (x - 600 ≤ h)) y = true := by
        intro y _ hy
        rw [decide_eq_true_eq] at hy ⊢
        omega
      exact le_trans (List.countP_mono_left hmono) (hwb l x [] rfl)
    · rw [List.countP_append]
      have hx0 : List.countP (fun r => decide (a ≤ r ∧ r ≤ a + 600)) [x] = 0 := by
        simp [hx]
      rw [hx0, Nat.add_zero]
      refine ih (List.pairwise_append.mp hsort).1 ?_
      intro pre r post heq
      exact hwb pre r (post ++ [x]) (by rw [heq]; simp)

/-- C2: over every feasible serialized sequence of `wait_if_needed`
acquisitions starting from the fresh limiter, and for every rolling
one-minute interval `[a, a + 60 s]`, the number of recorded request
timestamps inside the interval never exceeds the configured
`max_requests_per_minute` cap (times in tenths of a second, so the window
length is `600`).  The at-cap waiting behaviour — sleep
`60 s − (now − oldest) + 0.1 s`, re-purge, only then record — is the
`wait_if_needed` definition this bound is proved from. -/
theorem rate_limiter_sliding_window_bound (cfg : RLConfig) (calls : List ℤ)
    (hcap : 1 ≤ cfg.maxRequestsPerMinute)
    (hvalid : validCalls cfg rlInit calls = true) (a : ℤ) :
    ((runLimiter cfg rlInit calls).2.countP
        (fun r => decide (a ≤ r ∧ r ≤ a + 600))) ≤ cfg.maxRequestsPerMinute := by
  have hinit : Inv cfg rlInit [] := by
    constructor
    · exact List.Pairwise.nil
    · intro h hh
      simp at hh
    · rfl
    · show ([] : List ℤ).length ≤ cfg.maxRequestsPerMinute
      simp
    · intro pre r post heq
      simp at heq
  have h := runLimiter_inv cfg hcap calls rlInit [] hinit hvalid
  rw [List.nil_append] at h
  exact countP_window_le cfg.maxRequestsPerMinute a _ h.sorted h.window

/-- C2 witness: cap 2, no per-instance delay, three immediate callers at
`t = 0`; the third is delayed to `t = 60.1 s` and every 60-second window
holds at most 2 recorded timestamps. -/
theorem rate_limiter_sliding_window_bound_witness :
    1 ≤ 2 ∧ validCalls ⟨2, 0⟩ rlInit [0, 0, 0] = true ∧
      (runLimiter ⟨2, 0⟩ rlInit [0, 0, 0]).2 = [0, 0, 601] ∧
      ((runLimiter ⟨2, 0⟩ rlInit [0, 0, 0]).2.countP
        (fun r => decide ((0:ℤ) ≤ r ∧ r ≤ 0 + 600))) ≤ 2 :=
  ⟨by decide, by decide, by decide,
    rate_limiter_sliding_window_bound ⟨2, 0⟩ [0, 0, 0] (by decide) (by decide) 0⟩

end RateLimiter

end LeadScraper
